import Mathlib

/-!
Verification development for the mesa-llm examples repository
(`examples/negotiation/agents.py`, `examples/sugarscrap_g1mt/model.py`).

Each Python function relevant to the frozen claims is shallowly embedded as
an executable Lean definition; machine integers are `Nat`/`ℚ`, Python's
ambient `random` module and the model-owned seeded generator are explicit
random-source streams, and duck-typed runtime checks become pattern matches
on small inductive types.
-/

/- ============================================================
   Dialogue memory extractor
   (examples/negotiation/agents.py, `get_dialogue_history`)
   ============================================================ -/

/-- An agent registered in `agent.model.agents`: its Python class name
(`type(a).__name__`) and its `unique_id`. -/
structure ModelAgent where
  kind : String
  unique_id : Nat
deriving DecidableEq, Repr

/-- The runtime type of the `sender` value stored in a dialogue entry's
content dict: an agent object (has `unique_id`), a bare `int` id, or any
other value (rendered with `str`, e.g. the `"Unknown"` default). -/
inductive Sender where
  | agentRef (kind : String) (uid : Nat)
  | rawId (uid : Nat)
  | other (s : String)
deriving DecidableEq, Repr

/-- The payload of a memory entry: either a dict that contains a
`"message"` key (with the `"sender"` key possibly absent, modelled by
`Option Sender`), or anything else (a non-dict, or a dict without
`"message"`). -/
inductive Content where
  | msg (sender : Option Sender) (message : String)
  | nonDialogue
deriving DecidableEq, Repr

/-- A memory entry; only its `content` field is inspected by the
extractor. -/
structure Entry where
  content : Content
deriving DecidableEq, Repr

/-- The agent's memory backend: an `STLTMemory` (attribute
`short_term_memory`), an `EpisodicMemory` (attribute `memory_entries`),
or a backend exposing neither attribute. Buffers are oldest-first, as
Python lists are appended to. -/
inductive Memory where
  | stlt (buf : List Entry)
  | episodic (buf : List Entry)
  | noBackend
deriving DecidableEq, Repr

/-- The `memory_source` selection at the top of `get_dialogue_history`:
`short_term_memory` if present, else `memory_entries`, else `None`. -/
def memSource : Memory → Option (List Entry)
  | .stlt buf => some buf
  | .episodic buf => some buf
  | .noBackend => none

/-- Sender-label resolution (lines 48-62 of agents.py): an agent object
gives `f"[type-name] [unique_id]"`; an `int` id is looked up with
`next(a for a in agent.model.agents if a.unique_id == sender)`, falling
back to `f"Agent [id]"` on `StopIteration`; anything else is `str`-ed. -/
def resolveSender (agents : List ModelAgent) : Sender → String
  | .agentRef kind uid => kind ++ " " ++ toString uid
  | .rawId uid =>
      match agents.find? (fun a => a.unique_id == uid) with
      | some a => a.kind ++ " " ++ toString uid
      | none => "Agent " ++ toString uid
  | .other s => s

/-- The body of the retention test and formatting (lines 43-64): an entry
is processed iff `entry.content` is a dict containing `"message"`; the
sender defaults to the string `"Unknown"` when the `"sender"` key is
absent. Returns the formatted line, or `none` for non-dialogue entries. -/
def fmtc (agents : List ModelAgent) (e : Entry) : Option String :=
  match e.content with
  | .msg sd m =>
      some ("- " ++ resolveSender agents (sd.getD (Sender.other "Unknown")) ++ ": " ++ m)
  | .nonDialogue => none

/-- The `for entry in reversed(...)` loop (lines 37-64): the input list is
already reversed (newest first); stop once `max_messages` lines are
collected; append each qualifying formatted line to the accumulator. -/
def scanLoop (agents : List ModelAgent) (maxMessages : Nat) :
    List Entry → List String → List String
  | [], acc => acc
  | e :: rest, acc =>
      if maxMessages ≤ acc.length then acc
      else
        match fmtc agents e with
        | some line => scanLoop agents maxMessages rest (acc ++ [line])
        | none => scanLoop agents maxMessages rest acc

/-- Python's slice `l[-k:]` for `0 ≤ k ≤ len(l)`: the last `k` elements,
except that `l[-0:]` is the whole list. -/
def windowOf (k : Nat) (l : List Entry) : List Entry :=
  if k = 0 then l else l.drop (l.length - k)

/-- The dialogue collection of `get_dialogue_history` for a non-`None`
`memory_source` (lines 31-67): guard on truthiness of the buffer, scan the
reversed last `min(len, max_messages * 2)` entries, then reverse the
collected lines back into chronological order. -/
def extractedLines (agents : List ModelAgent) (maxMessages : Nat)
    (buf : List Entry) : List String :=
  let dialogue :=
    if buf.isEmpty then []
    else
      let entriesToCheck := min buf.length (maxMessages * 2)
      scanLoop agents maxMessages ((windowOf entriesToCheck buf).reverse) []
  dialogue.reverse

/-- The sentinel returned when no dialogue is found. -/
def sentinel : String := "No recent dialogue."

/-- `get_dialogue_history(agent, max_messages)` (agents.py lines 8-68).
The agent is represented by its model's agent list (used only for sender
lookup) and its memory backend. -/
def get_dialogue_history (agents : List ModelAgent) (mem : Memory)
    (maxMessages : Nat) : String :=
  let chron :=
    match memSource mem with
    | some buf => extractedLines agents maxMessages buf
    | none => []
  if chron.isEmpty then sentinel else String.intercalate "\n" chron

/- ============================================================
   SugarScape model construction
   (examples/sugarscrap_g1mt/model.py, `SugarScapeModel.__init__`)
   ============================================================ -/

/-- A deterministic random source: an infinite stream of raw draws with a
position. Two distinct sources appear in `SugarScapeModel.__init__`: the
ambient global `random` module, and the model-owned generator `self.rng`
derived from the `seed` argument. -/
structure RNG where
  stream : Nat → Nat
  idx : Nat

/-- Consume one raw draw. -/
def RNG.next (g : RNG) : Nat × RNG :=
  (g.stream g.idx, { g with idx := g.idx + 1 })

/-- `random.randint(a, b)`: uniform on the inclusive range `[a, b]`. -/
def randint (a b : Nat) (g : RNG) : Nat × RNG :=
  let (v, g') := g.next
  (a + v % (b - a + 1), g')

/-- `random.randrange(n)` / one `rng.integers(0, n)` draw: uniform on
`[0, n)`. -/
def randrange (n : Nat) (g : RNG) : Nat × RNG :=
  let (v, g') := g.next
  (v % n, g')

/-- The two resource kinds, `random.choice(["sugar", "spice"])`. -/
inductive Good where
  | sugar
  | spice
deriving DecidableEq, Repr

/-- `random.choice(["sugar", "spice"])`: one draw selecting an index. -/
def choiceGood (g : RNG) : Good × RNG :=
  let (v, g') := g.next
  (if v % 2 = 0 then Good.sugar else Good.spice, g')

/-- A `Resource` as initialised in the constructor loop (model.py lines
85-99): `max_capacity = randint(2,5)`, `current_amount = max_capacity`,
`growback = 1`, random kind, placed at a random cell. -/
structure ResourceInit where
  max_capacity : Nat
  current_amount : Nat
  growback : Nat
  kind : Good
  pos : Nat × Nat
deriving DecidableEq, Repr

/-- A `Trader` as initialised in the constructor (model.py lines 109-131):
inventories `randint(50,100)`, metabolisms `randint(1,4)`, placed at a
position drawn from the model-owned `self.rng`. -/
structure TraderInit where
  sugar : Nat
  spice : Nat
  metabolism_sugar : Nat
  metabolism_spice : Nat
  pos : Nat × Nat
deriving DecidableEq, Repr

/-- The state produced by `SugarScapeModel.__init__` that the claims
mention. -/
structure ModelInit where
  resources : List ResourceInit
  traders : List TraderInit
deriving DecidableEq, Repr

/-- The resource-creation loop (model.py lines 85-99). Every draw comes
from the ambient `random` module, in source order: capacity, kind, x, y. -/
def mkResources : Nat → Nat → Nat → RNG → List ResourceInit × RNG
  | 0, _, _, g => ([], g)
  | n + 1, w, h, g =>
      let (cap, g1) := randint 2 5 g
      let (k, g2) := choiceGood g1
      let (x, g3) := randrange w g2
      let (y, g4) := randrange h g3
      let (rest, g5) := mkResources n w h g4
      (⟨cap, cap, 1, k, (x, y)⟩ :: rest, g5)

/-- `self.rng.integers(0, n, size=(count,))` (model.py lines 120-121):
`count` draws from the model-owned generator. -/
def drawN : Nat → Nat → RNG → List Nat × RNG
  | 0, _, g => ([], g)
  | n + 1, w, g =>
      let (v, g1) := randrange w g
      let (rest, g2) := drawN n w g1
      (v :: rest, g2)

/-- The trader-initialisation loop (model.py lines 123-131): for each
placement position, draw sugar, spice, metabolism_sugar, metabolism_spice
from the ambient `random` module, in source order. -/
def mkTraders : List (Nat × Nat) → RNG → List TraderInit × RNG
  | [], g => ([], g)
  | p :: ps, g =>
      let (su, g1) := randint 50 100 g
      let (sp, g2) := randint 50 100 g1
      let (ms, g3) := randint 1 4 g2
      let (mp, g4) := randint 1 4 g3
      let (rest, g5) := mkTraders ps g4
      (⟨su, sp, ms, mp, p⟩ :: rest, g5)

/-- `SugarScapeModel.__init__` (model.py lines 32-131) restricted to the
state the claims mention: resources are created from the ambient RNG, then
trader positions are drawn from the model-owned seeded generator, then
trader attributes are drawn from the ambient RNG. -/
def buildModel (initial_traders initial_resources width height : Nat)
    (ambient model_rng : RNG) : ModelInit :=
  let rr := mkResources initial_resources width height ambient
  let xs := (drawN initial_traders width model_rng).1
  let ys := (drawN initial_traders height (drawN initial_traders width model_rng).2).1
  ⟨rr.1, (mkTraders (xs.zip ys) rr.2).1⟩

/-- A concrete random-source stream, constant at `c`. -/
def constStream (c : Nat) : RNG := ⟨fun _ => c, 0⟩

/- ============================================================
   One model tick
   (examples/sugarscrap_g1mt/model.py, `SugarScapeModel.step`)
   ============================================================ -/

/-- An agent registered in `model.agents`: `Resource` and `Trader` are both
mesa agents, created with `model=self` and so both activated by
`self.agents.shuffle_do("step")`. -/
inductive Ag where
  | resource (id : Nat)
  | trader (id : Nat)
deriving DecidableEq, Repr

/-- Observable events of one `SugarScapeModel.step` call. -/
inductive Ev where
  | resetCounters
  | regrow (id : Nat)
  | traderAct (id : Nat)
  | collectMetrics
deriving DecidableEq, Repr

/-- Modelled from the spec: the per-agent `step` methods live in
`examples/sugarscrap_g1mt/agents.py`, which is not under `src/`. Per spec
§4.2/§4.6, a `Resource`'s activation applies `regrow()` once, and a
`Trader`'s activation is one observe→decide→act cycle. -/
def agentStepEvents : Ag → List Ev
  | .resource i => [.regrow i]
  | .trader i => [.traderAct i]

/-- `SugarScapeModel.step` (model.py lines 133-147) as an event trace:
reset the per-tick harvest counters, then `self.agents.shuffle_do("step")`
activates every registered agent once in the shuffled order `order`, then
`self.datacollector.collect(self)` runs once. -/
def modelStepTrace (order : List Ag) : List Ev :=
  Ev.resetCounters :: (order.flatMap agentStepEvents ++ [Ev.collectMetrics])

/-- The registration order of `model.agents` after `__init__`: resources
are created first, then traders. -/
def agentsList (numResources numTraders : Nat) : List Ag :=
  (List.range numResources).map Ag.resource ++ (List.range numTraders).map Ag.trader

/-- The two per-tick harvest accumulators of the model. -/
structure HarvestCounters where
  step_sugar_harvest : Nat
  step_spice_harvest : Nat
deriving DecidableEq, Repr

/-- Effect of one event on the harvest counters. The reset event sets both
to zero (model.py lines 138-139); a trader's activation may add harvested
amounts (its effect, living in the missing agents.py, is abstracted as the
parameter `eff`); regrow and metrics collection do not write them. -/
def applyEv (eff : Nat → HarvestCounters → HarvestCounters) :
    Ev → HarvestCounters → HarvestCounters
  | .resetCounters, _ => ⟨0, 0⟩
  | .regrow _, s => s
  | .traderAct i, s => eff i s
  | .collectMetrics, s => s

/-- Run a trace over the harvest counters. -/
def runTrace (eff : Nat → HarvestCounters → HarvestCounters)
    (tr : List Ev) (s : HarvestCounters) : HarvestCounters :=
  tr.foldl (fun st e => applyEv eff e st) s

/-- Project an event to its phase: `some true` for a regrow, `some false`
for a trader activation, `none` for the bookkeeping events. -/
def evPhase : Ev → Option Bool
  | .regrow _ => some true
  | .traderAct _ => some false
  | _ => none

/-- The regrow/activation phase pattern of a trace. -/
def phases (tr : List Ev) : List Bool :=
  tr.filterMap evPhase

/-- A trace is phase-separated when all regrows come before all trader
activations, or all come after. -/
def separated (tr : List Ev) : Bool :=
  let p := phases tr
  decide (p = p.filter (· = true) ++ p.filter (· = false)) ||
  decide (p = p.filter (· = false) ++ p.filter (· = true))

/- ============================================================
   Trader economics and the bilateral trade protocol
   (spec §4.3 / §4.4; `examples/sugarscrap_g1mt/agents.py` is not
   under src/, so these are modelled from the spec)
   ============================================================ -/

/-- The economic state of a trader: inventories and metabolisms, as exact
rationals. -/
structure TraderEcon where
  sugar : ℚ
  spice : ℚ
  metabolism_sugar : ℚ
  metabolism_spice : ℚ
deriving DecidableEq, Repr

/-- Modelled from the spec (§4.3, `compute_mrs` in the missing
agents.py): MRS = (inventory_A / metabolism_A) / (inventory_B /
metabolism_B) with good A = sugar and good B = spice; `none` is the
`DivisionUndefined` failure, raised when a metabolism or the denominator
inventory is zero. -/
def calculate_mrs (t : TraderEcon) : Option ℚ :=
  if t.metabolism_sugar = 0 ∨ t.metabolism_spice = 0 ∨ t.spice = 0 then none
  else some ((t.sugar / t.metabolism_sugar) / (t.spice / t.metabolism_spice))

/-- View a constructed trader's economic state as rationals. -/
def traderEconOfInit (t : TraderInit) : TraderEcon :=
  ⟨(t.sugar : ℚ), (t.spice : ℚ), (t.metabolism_sugar : ℚ), (t.metabolism_spice : ℚ)⟩

/-- Modelled from the spec (§4.4 step 7): one executed increment moves
`qty` of good A (sugar) from seller to buyer and `qty * price` of good B
(spice) from buyer to seller. -/
def executeIncrement (qty price : ℚ) (buyer seller : TraderEcon) :
    TraderEcon × TraderEcon :=
  ({ buyer with sugar := buyer.sugar + qty, spice := buyer.spice - qty * price },
   { seller with sugar := seller.sugar - qty, spice := seller.spice + qty * price })

/-- Modelled from the spec (§4.4 step 5): an increment executes only if
no inventory would go negative and neither party's recomputed MRS crosses
past the other's pre-trade MRS. -/
def feasible (qty price : ℚ) (buyer seller : TraderEcon)
    (mrsBuyer mrsSeller : ℚ) : Bool :=
  let bs := executeIncrement qty price buyer seller
  decide (0 ≤ bs.1.spice) && decide (0 ≤ bs.2.sugar) &&
    match calculate_mrs bs.1, calculate_mrs bs.2 with
    | some mb, some ms => decide (mrsSeller ≤ mb) && decide (ms ≤ mrsBuyer)
    | _, _ => false

/-- One realized trade record: unit price and quantity. -/
structure TradeRec where
  price : ℚ
  quantity : ℚ
deriving DecidableEq, Repr

/-- Modelled from the spec (§4.4 steps 1-6): the bounded negotiation loop
between a pair. The documented price rule (geometric mean of the two MRS
values) is irrational in general, so the price rule is abstracted as the
parameter `priceRule`; `fuel` is the per-tick iteration cap, `tol` the
MRS-equality tolerance, and the minimal quantity increment is one unit.
The returned pair is in buyer/seller order of the last executed increment;
conservation statements are symmetric in the pair. -/
def negotiate (priceRule : TraderEcon → TraderEcon → ℚ) (tol : ℚ) :
    Nat → TraderEcon → TraderEcon → TraderEcon × TraderEcon × List TradeRec
  | 0, a, b => (a, b, [])
  | fuel + 1, a, b =>
      match calculate_mrs a, calculate_mrs b with
      | some ma, some mb =>
          if |ma - mb| ≤ tol then (a, b, [])
          else
            let buyer := if mb < ma then a else b
            let seller := if mb < ma then b else a
            let mrsBuyer := if mb < ma then ma else mb
            let mrsSeller := if mb < ma then mb else ma
            let price := priceRule buyer seller
            if feasible 1 price buyer seller mrsBuyer mrsSeller then
              let bs := executeIncrement 1 price buyer seller
              let r := negotiate priceRule tol fuel bs.1 bs.2
              (r.1, r.2.1, ⟨price, 1⟩ :: r.2.2)
            else (a, b, [])
      | _, _ => (a, b, [])

/- ============================================================
   Negotiation example agents and the module-level tool managers
   (examples/negotiation/agents.py, lines 4-5, 90, 149)
   ============================================================ -/

/-- A tool registry (`ToolManager`), reduced to the mutable state the
claim is about: the set of registered tools. -/
structure ToolManager where
  tools : List String
deriving DecidableEq, Repr

/-- A reference to one of the two module-level `ToolManager` objects
created at import time of agents.py (lines 4-5). Object identity in
Python becomes a reference into the module's store. -/
inductive TMRef where
  | sellerGlobal
  | buyerGlobal
deriving DecidableEq, Repr

/-- The module-level mutable state of agents.py: the two `ToolManager`
objects. -/
structure ToolStore where
  seller_tool_manager : ToolManager
  buyer_tool_manager : ToolManager
deriving DecidableEq, Repr

/-- Dereference a tool-manager reference in the module store. -/
def ToolStore.get (st : ToolStore) : TMRef → ToolManager
  | .sellerGlobal => st.seller_tool_manager
  | .buyerGlobal => st.buyer_tool_manager

/-- Mutate the tool registry reached through a reference (e.g. register a
tool): the write lands on the shared module-level object. -/
def ToolStore.registerTool (st : ToolStore) (r : TMRef) (tool : String) :
    ToolStore :=
  match r with
  | .sellerGlobal =>
      { st with seller_tool_manager := ⟨st.seller_tool_manager.tools ++ [tool]⟩ }
  | .buyerGlobal =>
      { st with buyer_tool_manager := ⟨st.buyer_tool_manager.tools ++ [tool]⟩ }

/-- The per-instance state of a negotiation agent that the claim is
about: which model it belongs to, its id, and which `ToolManager` object
its `tool_manager` attribute refers to. -/
structure NegotiationAgentInit where
  model_id : Nat
  uid : Nat
  tool_manager : TMRef
deriving DecidableEq, Repr

/-- `SellerAgent.__init__` (agents.py line 90): `self.tool_manager =
seller_tool_manager`, regardless of the model the agent joins. -/
def mkSellerAgent (model_id uid : Nat) : NegotiationAgentInit :=
  ⟨model_id, uid, TMRef.sellerGlobal⟩

/-- `BuyerAgent.__init__` (agents.py line 149): `self.tool_manager =
buyer_tool_manager`, regardless of the model the agent joins. -/
def mkBuyerAgent (model_id uid : Nat) : NegotiationAgentInit :=
  ⟨model_id, uid, TMRef.buyerGlobal⟩

/-- Test fixture: 12 dialogue-shaped entries (messages m1..m12 from a
string sender) followed by 8 non-dialogue entries. -/
def bufTwelveThenEight : List Entry :=
  (List.range 12).map
    (fun i => ⟨Content.msg (some (Sender.other "A")) ("m" ++ toString (i + 1))⟩) ++
    List.replicate 8 ⟨Content.nonDialogue⟩

/-- Test fixture: 6 dialogue-shaped entries. -/
def bufSixDialogue : List Entry :=
  (List.range 6).map
    (fun i => ⟨Content.msg (some (Sender.other "A")) ("m" ++ toString (i + 1))⟩)

/-- A constructed trader's non-spatial attributes (the ones drawn from the
ambient RNG): inventories and metabolisms. -/
def econOf (t : TraderInit) : Nat × Nat × Nat × Nat :=
  (t.sugar, t.spice, t.metabolism_sugar, t.metabolism_spice)

/- ============================================================
   Helper lemmas: the dialogue extractor
   ============================================================ -/

/-- The scan loop collects, onto `acc`, the first formatted lines of `l`
up to the `maxMessages` bound. -/
theorem scanLoop_eq (agents : List ModelAgent) (m : Nat) (l : List Entry) :
    ∀ acc : List String,
      scanLoop agents m l acc =
        if m ≤ acc.length then acc
        else acc ++ (l.filterMap (fmtc agents)).take (m - acc.length) := by
  induction l with
  | nil => intro acc; by_cases h : m ≤ acc.length <;> simp [scanLoop, h]
  | cons e rest ih =>
      intro acc
      by_cases h : m ≤ acc.length
      · simp [scanLoop, h]
      · cases hf : fmtc agents e with
        | none =>
            simp only [scanLoop, if_neg h, hf]
            rw [ih acc]
            simp [h, List.filterMap_cons, hf]
        | some line =>
            simp only [scanLoop, if_neg h, hf]
            rw [ih (acc ++ [line])]
            have hlen : (acc ++ [line]).length = acc.length + 1 := by simp
            by_cases h2 : m ≤ acc.length + 1
            · have hm : m - acc.length = 1 := by omega
              simp [hlen, h2, List.filterMap_cons, hf, hm, h]
            · have hm : m - acc.length = (m - (acc.length + 1)) + 1 := by omega
              simp [hlen, h2, List.filterMap_cons, hf, hm, h]

/-- Specialisation to the empty accumulator used by the extractor. -/
theorem scanLoop_nil_acc (agents : List ModelAgent) (m : Nat) (l : List Entry) :
    scanLoop agents m l [] = (l.filterMap (fmtc agents)).take m := by
  rw [scanLoop_eq]
  by_cases h : m = 0
  · simp [h]
  · simp [h, Nat.pos_of_ne_zero h, Nat.not_le.mpr (Nat.pos_of_ne_zero h)]

/-- The extracted lines are exactly the last `maxMessages` formatted
dialogue lines of the scanned window, in chronological order. -/
theorem extractedLines_eq (agents : List ModelAgent) (m : Nat) (buf : List Entry) :
    extractedLines agents m buf =
      ((windowOf (min buf.length (m * 2)) buf).filterMap (fmtc agents)).rtake m := by
  unfold extractedLines
  by_cases hb : buf.isEmpty
  · have : buf = [] := List.isEmpty_iff.mp hb
    subst this
    simp [windowOf, List.rtake]
  · simp only [hb, Bool.false_eq_true, if_false]
    rw [scanLoop_nil_acc, List.filterMap_reverse, List.rtake_eq_reverse_take_reverse]

/-- Taking from the right end of an append only sees the right part when
it is long enough. -/
theorem rtake_append_of_le {α : Type} (a b : List α) (m : Nat)
    (h : m ≤ b.length) : (a ++ b).rtake m = b.rtake m := by
  unfold List.rtake
  have : (a ++ b).length - m = a.length + (b.length - m) := by
    simp [List.length_append]; omega
  rw [this, List.drop_append]

/-- The scanned window is a suffix of the whole buffer. -/
theorem windowOf_suffix (k : Nat) (l : List Entry) : windowOf k l <:+ l := by
  unfold windowOf
  by_cases h : k = 0
  · simp [h]
  · simp [h, List.drop_suffix]

/-- When the scanned window still contains at least `m` dialogue entries,
the last `m` formatted lines of the window are the last `m` formatted
lines of the whole buffer. -/
theorem rtake_filterMap_window (agents : List ModelAgent) (m k : Nat)
    (buf : List Entry)
    (h : m ≤ ((windowOf k buf).filterMap (fmtc agents)).length) :
    ((windowOf k buf).filterMap (fmtc agents)).rtake m =
      (buf.filterMap (fmtc agents)).rtake m := by
  obtain ⟨t, ht⟩ := windowOf_suffix k buf
  conv_rhs => rw [← ht]
  rw [List.filterMap_append, rtake_append_of_le _ _ _ h]

/-- Master characterisation of `get_dialogue_history` on a present memory
buffer: the result is the last `m` formatted dialogue lines of the
scanned window, joined, or the sentinel when there are none. -/
theorem gdh_eq_of_memSource (agents : List ModelAgent) (m : Nat) (mem : Memory)
    (buf : List Entry) (h : memSource mem = some buf) :
    get_dialogue_history agents mem m =
      if (((windowOf (min buf.length (m * 2)) buf).filterMap (fmtc agents)).rtake m).isEmpty
      then sentinel
      else String.intercalate "\n"
        (((windowOf (min buf.length (m * 2)) buf).filterMap (fmtc agents)).rtake m) := by
  simp only [get_dialogue_history, h, extractedLines_eq]

/-- If the whole buffer has no dialogue-shaped entry, neither has the
scanned window. -/
theorem window_filterMap_nil (agents : List ModelAgent) (k : Nat)
    (buf : List Entry) (h : buf.filterMap (fmtc agents) = []) :
    (windowOf k buf).filterMap (fmtc agents) = [] := by
  obtain ⟨t, ht⟩ := windowOf_suffix k buf
  have happ : t.filterMap (fmtc agents) ++ (windowOf k buf).filterMap (fmtc agents) = [] := by
    rw [← List.filterMap_append, ht, h]
  exact (List.append_eq_nil.mp happ).2

/- ============================================================
   Claim theorems: dialogue extraction (C2, C3, C6, C7)
   ============================================================ -/

/-- C2 counterexample: with the 8 non-dialogue entries at the end of the
20-entry memory, `get_dialogue_history(agent, max_messages=5)` scans only
the last 10 entries and returns just 2 dialogue lines — not the 5 most
recent dialogue entries that the claim demands for every interleaving. -/
theorem c2_counterexample :
    get_dialogue_history [] (Memory.stlt bufTwelveThenEight) 5 =
      "- A: m11\n- A: m12"
  ∧ get_dialogue_history [] (Memory.stlt bufTwelveThenEight) 5 ≠
      String.intercalate "\n" ((bufTwelveThenEight.filterMap (fmtc [])).rtake 5) := by
  decide

/-- C2 (amended): whenever the scanned window — the most recent
`min(len, max_messages * 2)` entries — still contains at least
`max_messages` dialogue-shaped entries, `get_dialogue_history` returns
exactly the `max_messages` most recent dialogue entries of the whole
memory, formatted with resolved sender labels, in chronological order;
and with zero dialogue-shaped entries it returns the sentinel. -/
theorem c2_amended_window_extraction :
    (∀ (agents : List ModelAgent) (buf : List Entry),
      5 ≤ ((windowOf (min buf.length (5 * 2)) buf).filterMap (fmtc agents)).length →
      get_dialogue_history agents (Memory.stlt buf) 5 =
        String.intercalate "\n" ((buf.filterMap (fmtc agents)).rtake 5))
  ∧ (∀ (agents : List ModelAgent) (buf : List Entry),
      buf.filterMap (fmtc agents) = [] →
      get_dialogue_history agents (Memory.stlt buf) 5 = sentinel) := by
  constructor
  · intro agents buf h
    rw [gdh_eq_of_memSource agents 5 (Memory.stlt buf) buf rfl]
    have hlen :
        (((windowOf (min buf.length (5 * 2)) buf).filterMap (fmtc agents)).rtake 5).length
          = 5 := by
      unfold List.rtake
      rw [List.length_drop]
      omega
    have hne :
        (((windowOf (min buf.length (5 * 2)) buf).filterMap (fmtc agents)).rtake 5).isEmpty
          = false := by
      rcases hh : ((windowOf (min buf.length (5 * 2)) buf).filterMap (fmtc agents)).rtake 5 with
        _ | _
      · rw [hh] at hlen; simp at hlen
      · simp
    rw [hne]
    simp only [Bool.false_eq_true, if_false]
    rw [rtake_filterMap_window agents 5 (min buf.length (5 * 2)) buf h]
  · intro agents buf h
    rw [gdh_eq_of_memSource agents 5 (Memory.stlt buf) buf rfl,
      window_filterMap_nil agents _ buf h]
    simp [List.rtake]

/-- C2 witness: a six-dialogue-entry memory where the window bound is not
binding, and a memory with no dialogue entries. -/
theorem c2_amended_window_extraction_witness :
    get_dialogue_history [] (Memory.stlt bufSixDialogue) 5 =
      String.intercalate "\n" ((bufSixDialogue.filterMap (fmtc [])).rtake 5)
  ∧ get_dialogue_history [] (Memory.stlt [⟨Content.nonDialogue⟩]) 5 = sentinel := by
  constructor
  · exact c2_amended_window_extraction.1 [] bufSixDialogue (by decide)
  · exact c2_amended_window_extraction.2 [] [⟨Content.nonDialogue⟩] (by decide)

/-- C3 counterexample: an entry whose content dict has a `"message"` key
but no `"sender"` key is retained in the digest (with the `"Unknown"`
default label), contradicting the claim that an entry lacking a sender is
not retained. -/
theorem c3_counterexample :
    get_dialogue_history [] (Memory.stlt [⟨Content.msg none "hello"⟩]) 5 =
      "- Unknown: hello"
  ∧ get_dialogue_history [] (Memory.stlt [⟨Content.msg none "hello"⟩]) 5 ≠ sentinel := by
  decide

/-- C3 (amended): an examined entry is retained in the digest if and only
if its payload is a dict containing a message text; a sender is not
required — a missing sender is rendered with the `"Unknown"` label. -/
theorem c3_amended_retention :
    (∀ (agents : List ModelAgent) (m : Nat) (buf : List Entry),
      extractedLines agents m buf =
        ((windowOf (min buf.length (m * 2)) buf).filterMap (fmtc agents)).rtake m)
  ∧ (∀ (agents : List ModelAgent) (sd : Option Sender) (msg : String),
      fmtc agents ⟨Content.msg sd msg⟩ =
        some ("- " ++ resolveSender agents (sd.getD (Sender.other "Unknown")) ++ ": " ++ msg))
  ∧ (∀ agents : List ModelAgent, fmtc agents ⟨Content.nonDialogue⟩ = none)
  ∧ (∀ (agents : List ModelAgent) (msg : String),
      (fmtc agents ⟨Content.msg none msg⟩).isSome) :=
  ⟨extractedLines_eq, fun _ _ _ => rfl, fun _ => rfl, fun _ _ => rfl⟩

/-- C6: sender-label resolution — an agent reference yields its kind and
id; a bare id is looked up among the model's agents for its kind; a
lookup miss yields the generic label and the resolution function is total
(no error). -/
theorem c6_sender_resolution :
    (∀ (agents : List ModelAgent) (kind : String) (uid : Nat),
      resolveSender agents (Sender.agentRef kind uid) = kind ++ " " ++ toString uid)
  ∧ (∀ (agents : List ModelAgent) (uid : Nat) (a : ModelAgent),
      agents.find? (fun x => x.unique_id == uid) = some a →
      resolveSender agents (Sender.rawId uid) = a.kind ++ " " ++ toString uid)
  ∧ (∀ (agents : List ModelAgent) (uid : Nat),
      agents.find? (fun x => x.unique_id == uid) = none →
      resolveSender agents (Sender.rawId uid) = "Agent " ++ toString uid) := by
  refine ⟨fun _ _ _ => rfl, ?_, ?_⟩
  · intro agents uid a h
    simp [resolveSender, h]
  · intro agents uid h
    simp [resolveSender, h]

/-- C6 witness: a hit and a miss of the agent lookup. -/
theorem c6_sender_resolution_witness :
    resolveSender [⟨"SellerAgent", 3⟩] (Sender.rawId 3) = "SellerAgent 3"
  ∧ resolveSender [⟨"SellerAgent", 3⟩] (Sender.rawId 7) = "Agent 7" := by
  constructor
  · exact (c6_sender_resolution.2.1 [⟨"SellerAgent", 3⟩] 3 ⟨"SellerAgent", 3⟩
      (by decide)).trans (by decide)
  · exact (c6_sender_resolution.2.2 [⟨"SellerAgent", 3⟩] 7 (by decide)).trans (by decide)

/-- C7: absence of dialogue is never an error — a missing backend, an
empty buffer, and a buffer with no dialogue-shaped entries all yield the
sentinel, and otherwise the result is the collected lines joined in
chronological order. -/
theorem c7_no_dialogue_sentinel :
    (∀ (agents : List ModelAgent) (m : Nat),
      get_dialogue_history agents Memory.noBackend m = sentinel)
  ∧ (∀ (agents : List ModelAgent) (m : Nat),
      get_dialogue_history agents (Memory.stlt []) m = sentinel
      ∧ get_dialogue_history agents (Memory.episodic []) m = sentinel)
  ∧ (∀ (agents : List ModelAgent) (buf : List Entry) (m : Nat),
      buf.filterMap (fmtc agents) = [] →
      get_dialogue_history agents (Memory.stlt buf) m = sentinel
      ∧ get_dialogue_history agents (Memory.episodic buf) m = sentinel)
  ∧ (∀ (agents : List ModelAgent) (buf : List Entry) (m : Nat),
      extractedLines agents m buf ≠ [] →
      get_dialogue_history agents (Memory.stlt buf) m =
        String.intercalate "\n" (extractedLines agents m buf)
      ∧ get_dialogue_history agents (Memory.episodic buf) m =
        String.intercalate "\n" (extractedLines agents m buf)) := by
  refine ⟨fun _ _ => rfl, fun agents m => ⟨rfl, rfl⟩, ?_, ?_⟩
  · intro agents buf m h
    have hw := window_filterMap_nil agents (min buf.length (m * 2)) buf h
    constructor
    · rw [gdh_eq_of_memSource agents m (Memory.stlt buf) buf rfl, hw]
      simp [List.rtake]
    · rw [gdh_eq_of_memSource agents m (Memory.episodic buf) buf rfl, hw]
      simp [List.rtake]
  · intro agents buf m h
    have hne : (extractedLines agents m buf).isEmpty = false := by
      rcases hh : extractedLines agents m buf with _ | _
      · exact absurd hh h
      · simp
    constructor
    · simp only [get_dialogue_history, memSource, hne, Bool.false_eq_true, if_false]
    · simp only [get_dialogue_history, memSource, hne, Bool.false_eq_true, if_false]

/-- C7 witness: a buffer with only non-dialogue entries yields the
sentinel; a one-message buffer yields its joined line. -/
theorem c7_no_dialogue_sentinel_witness :
    get_dialogue_history [] (Memory.stlt [⟨Content.nonDialogue⟩]) 5 = sentinel
  ∧ get_dialogue_history [] (Memory.episodic [⟨Content.msg none "hi"⟩]) 5 =
      String.intercalate "\n" (extractedLines [] 5 [⟨Content.msg none "hi"⟩]) := by
  constructor
  · exact (c7_no_dialogue_sentinel.2.2.1 [] [⟨Content.nonDialogue⟩] 5 (by decide)).1
  · exact (c7_no_dialogue_sentinel.2.2.2 [] [⟨Content.msg none "hi"⟩] 5 (by decide)).2

/- ============================================================
   Helper lemmas: model construction
   ============================================================ -/

/-- The trader-initialisation loop stores the given positions verbatim, in
order. -/
theorem mkTraders_map_pos : ∀ (ps : List (Nat × Nat)) (g : RNG),
    ((mkTraders ps g).1).map TraderInit.pos = ps := by
  intro ps
  induction ps with
  | nil => intro g; rfl
  | cons p qs ih => intro g; simp [mkTraders, randint, RNG.next, ih]

/-- The ambient draws of the trader loop (inventories and metabolisms)
depend only on the RNG and on how many traders there are — not on the
positions handed in. -/
theorem mkTraders_map_econ : ∀ (ps ps' : List (Nat × Nat)) (g : RNG),
    ps.length = ps'.length →
    ((mkTraders ps g).1).map econOf = ((mkTraders ps' g).1).map econOf := by
  intro ps
  induction ps with
  | nil =>
      intro ps' g h
      cases ps' with
      | nil => rfl
      | cons q qs => simp at h
  | cons p qs ih =>
      intro ps' g h
      cases ps' with
      | nil => simp at h
      | cons q rs =>
          have hlen : qs.length = rs.length := by simpa using h
          simp only [mkTraders, randint, RNG.next, List.map_cons, econOf]
          exact congrArg (List.cons _) (ih rs _ hlen)

/-- `random.randint(a, b)` lands in the inclusive range `[a, b]`. -/
theorem randint_bounds (a b : Nat) (g : RNG) (h : a ≤ b) :
    a ≤ (randint a b g).1 ∧ (randint a b g).1 ≤ b := by
  unfold randint RNG.next
  have hm : g.stream g.idx % (b - a + 1) < b - a + 1 :=
    Nat.mod_lt _ (by omega)
  constructor
  · simp
  · simp only []
    omega

/-- Every trader produced by the initialisation loop has inventories in
[50, 100] and metabolisms in [1, 4]. -/
theorem mkTraders_mem_bounds : ∀ (ps : List (Nat × Nat)) (g : RNG) (tr : TraderInit),
    tr ∈ (mkTraders ps g).1 →
    50 ≤ tr.sugar ∧ tr.sugar ≤ 100 ∧ 50 ≤ tr.spice ∧ tr.spice ≤ 100 ∧
    1 ≤ tr.metabolism_sugar ∧ tr.metabolism_sugar ≤ 4 ∧
    1 ≤ tr.metabolism_spice ∧ tr.metabolism_spice ≤ 4 := by
  intro ps
  induction ps with
  | nil => intro g tr h; simp [mkTraders] at h
  | cons p qs ih =>
      intro g tr h
      simp only [mkTraders, randint, RNG.next] at h
      rcases List.mem_cons.mp h with hh | ht
      · subst hh
        simp only []
        have h1 : g.stream g.idx % 51 < 51 := Nat.mod_lt _ (by omega)
        have h2 : g.stream (g.idx + 1) % 51 < 51 := Nat.mod_lt _ (by omega)
        have h3 : g.stream (g.idx + 2) % 4 < 4 := Nat.mod_lt _ (by omega)
        have h4 : g.stream (g.idx + 3) % 4 < 4 := Nat.mod_lt _ (by omega)
        refine ⟨?_, ?_, ?_, ?_, ?_, ?_, ?_, ?_⟩ <;> omega
      · exact ih _ tr ht

/- ============================================================
   Helper lemmas: the model tick trace
   ============================================================ -/

/-- Each shuffled agent contributes exactly its own events: regrow events
of resource `i` occur in the activation body as often as resource `i`
occurs in the activation order. -/
theorem count_regrow_flatMap : ∀ (order : List Ag) (i : Nat),
    (order.flatMap agentStepEvents).count (Ev.regrow i) = order.count (Ag.resource i) := by
  intro order i
  induction order with
  | nil => rfl
  | cons a rest ih =>
      cases a with
      | resource j =>
          simp only [List.flatMap_cons, agentStepEvents, List.singleton_append,
            List.count_cons, ih]
          by_cases hj : j = i <;> simp [hj]
      | trader j =>
          simp only [List.flatMap_cons, agentStepEvents, List.singleton_append,
            List.count_cons, ih]
          simp

/-- The activation body contains no bookkeeping events. -/
theorem flatMap_no_bookkeeping : ∀ order : List Ag,
    (order.flatMap agentStepEvents).all
      (fun e => !(e == Ev.resetCounters) && !(e == Ev.collectMetrics)) = true := by
  intro order
  induction order with
  | nil => rfl
  | cons a rest ih => cases a <;> simpa [agentStepEvents] using ih

/-- In the registration order of `__init__`, resource `i < numResources`
occurs exactly once. -/
theorem count_resource_agentsList (nR nT i : Nat) (h : i < nR) :
    (agentsList nR nT).count (Ag.resource i) = 1 := by
  unfold agentsList
  rw [List.count_append]
  have hinj : Function.Injective Ag.resource := fun a b hab => by
    cases hab; rfl
  have h1 : ((List.range nR).map Ag.resource).count (Ag.resource i) = 1 := by
    rw [List.count_map_of_injective _ _ hinj]
    exact List.count_eq_one_of_mem (List.nodup_range nR) (List.mem_range.mpr h)
  have h2 : ((List.range nT).map Ag.trader).count (Ag.resource i) = 0 := by
    rw [List.count_eq_zero]
    intro hmem
    rcases List.mem_map.mp hmem with ⟨j, _, hj⟩
    exact Ag.noConfusion hj
  omega

/-- `rng.integers(0, n, size=(count,))` yields `count` values. -/
theorem drawN_length : ∀ (n w : Nat) (g : RNG), (drawN n w g).1.length = n := by
  intro n
  induction n with
  | zero => intro w g; rfl
  | succ m ih => intro w g; simp [drawN, randrange, RNG.next, ih]

/-- The negotiation loop conserves the pair's combined sugar. -/
theorem negotiate_sugar_conserved (rule : TraderEcon → TraderEcon → ℚ) (tol : ℚ) :
    ∀ (fuel : Nat) (a b : TraderEcon),
      (negotiate rule tol fuel a b).1.sugar + (negotiate rule tol fuel a b).2.1.sugar
        = a.sugar + b.sugar := by
  intro fuel
  induction fuel with
  | zero => intro a b; rfl
  | succ n ih =>
      intro a b
      simp only [negotiate]
      cases hma : calculate_mrs a with
      | none => rfl
      | some ma =>
          cases hmb : calculate_mrs b with
          | none => rfl
          | some mb =>
              by_cases htol : |ma - mb| ≤ tol
              · simp [htol]
              · by_cases hd : mb < ma
                · by_cases hf : feasible 1 (rule a b) a b ma mb
                  · simp only [htol, hd, hf, if_true, if_false, ite_true, ite_false]
                    rw [ih]
                    simp [executeIncrement]
                    try ring
                  · simp [htol, hd, hf]
                · by_cases hf : feasible 1 (rule b a) b a mb ma
                  · simp only [htol, hd, hf, if_true, if_false, ite_true, ite_false]
                    rw [ih]
                    simp [executeIncrement]
                    try ring
                  · simp [htol, hd, hf]

/-- The negotiation loop conserves the pair's combined spice. -/
theorem negotiate_spice_conserved (rule : TraderEcon → TraderEcon → ℚ) (tol : ℚ) :
    ∀ (fuel : Nat) (a b : TraderEcon),
      (negotiate rule tol fuel a b).1.spice + (negotiate rule tol fuel a b).2.1.spice
        = a.spice + b.spice := by
  intro fuel
  induction fuel with
  | zero => intro a b; rfl
  | succ n ih =>
      intro a b
      simp only [negotiate]
      cases hma : calculate_mrs a with
      | none => rfl
      | some ma =>
          cases hmb : calculate_mrs b with
          | none => rfl
          | some mb =>
              by_cases htol : |ma - mb| ≤ tol
              · simp [htol]
              · by_cases hd : mb < ma
                · by_cases hf : feasible 1 (rule a b) a b ma mb
                  · simp only [htol, hd, hf, if_true, if_false, ite_true, ite_false]
                    rw [ih]
                    simp [executeIncrement]
                    try ring
                  · simp [htol, hd, hf]
                · by_cases hf : feasible 1 (rule b a) b a mb ma
                  · simp only [htol, hd, hf, if_true, if_false, ite_true, ite_false]
                    rw [ih]
                    simp [executeIncrement]
                    try ring
                  · simp [htol, hd, hf]

/- ============================================================
   Claim theorems: model construction and scheduling
   (C1, C4, C8, C9) and trade/tool-manager claims (C5, C10)
   ============================================================ -/

/-- C1 counterexample: two runs with the same configuration and the same
model-owned seeded generator, but with the ambient global `random` module
in different states, construct traders with different inventories and
metabolisms (and different resources) — so construction randomness is
drawn from the ambient global RNG and same-seed runs are not identical. -/
theorem c1_counterexample :
    (buildModel 1 1 4 4 (constStream 0) (constStream 0)).traders ≠
      (buildModel 1 1 4 4 (constStream 1) (constStream 0)).traders
  ∧ (buildModel 1 1 4 4 (constStream 0) (constStream 0)).resources ≠
      (buildModel 1 1 4 4 (constStream 1) (constStream 0)).resources := by
  constructor <;> decide

/-- C1 (amended): the randomness of model construction splits across two
sources — trader placement positions depend only on the model-owned
seeded generator (they are unchanged under any change of the ambient
RNG), while resource creation and trader inventories/metabolisms depend
only on the ambient global `random` module (unchanged under any change of
the seeded generator). Runs are reproducible only when both sources are
fixed. -/
theorem c1_amended_rng_separation :
    ∀ (t r w h : Nat) (amb amb' mr mr' : RNG),
      ((buildModel t r w h amb mr).traders.map TraderInit.pos =
        (buildModel t r w h amb' mr).traders.map TraderInit.pos)
    ∧ ((buildModel t r w h amb mr).resources =
        (buildModel t r w h amb mr').resources)
    ∧ ((buildModel t r w h amb mr).traders.map econOf =
        (buildModel t r w h amb mr').traders.map econOf) := by
  intro t r w h amb amb' mr mr'
  refine ⟨?_, rfl, ?_⟩
  · simp only [buildModel, mkTraders_map_pos]
  · simp only [buildModel]
    exact mkTraders_map_econ _ _ _ (by simp [drawN_length])

/-- C4 counterexample: the shuffled activation of `model.step` can place a
resource's regrow between two trader activations of the same tick — the
order below is a permutation of the registered agents, and its tick trace
is not phase-separated. -/
theorem c4_counterexample :
    List.Perm [Ag.trader 0, Ag.resource 0, Ag.trader 1] (agentsList 1 2)
  ∧ separated (modelStepTrace [Ag.trader 0, Ag.resource 0, Ag.trader 1]) = false := by
  constructor <;> decide

/-- C4 (amended): regrow is applied to every resource exactly once per
tick, but as part of the single shuffled activation pass over all agents
(`self.agents.shuffle_do("step")`), so it can be interleaved with the
trader activations of the same tick instead of forming a separate phase. -/
theorem c4_amended_regrow_once :
    ∀ (order : List Ag) (numResources numTraders : Nat),
      order.Perm (agentsList numResources numTraders) →
      ∀ i : Nat, i < numResources →
        (modelStepTrace order).count (Ev.regrow i) = 1 := by
  intro order nR nT hperm i hi
  have h1 : (modelStepTrace order).count (Ev.regrow i) =
      (order.flatMap agentStepEvents).count (Ev.regrow i) := by
    simp [modelStepTrace, List.count_cons, List.count_append]
  rw [h1, count_regrow_flatMap, hperm.count_eq, count_resource_agentsList nR nT i hi]

/-- C4 witness: the identity permutation of one resource and two traders;
the resource regrows exactly once in the tick. -/
theorem c4_amended_regrow_once_witness :
    (modelStepTrace (agentsList 1 2)).count (Ev.regrow 0) = 1 :=
  c4_amended_regrow_once (agentsList 1 2) 1 2 (List.Perm.refl _) 0 (by decide)

/-- C8: in every tick, whatever the shuffled order and the traders'
harvest effects, the per-tick harvest accumulators are reset to zero
before any agent activation runs (the post-reset run starts from zeroed
counters regardless of the incoming state), the metrics sink runs exactly
once, as the last event of the tick, and the activation body contains no
bookkeeping events. -/
theorem c8_reset_and_collect_phases :
    ∀ (eff : Nat → HarvestCounters → HarvestCounters) (order : List Ag)
      (s : HarvestCounters),
      runTrace eff (modelStepTrace order) s =
        runTrace eff (order.flatMap agentStepEvents) ⟨0, 0⟩
    ∧ (modelStepTrace order).count Ev.collectMetrics = 1
    ∧ (modelStepTrace order).getLast? = some Ev.collectMetrics
    ∧ (modelStepTrace order).head? = some Ev.resetCounters
    ∧ (order.flatMap agentStepEvents).all
        (fun e => !(e == Ev.resetCounters) && !(e == Ev.collectMetrics)) = true := by
  intro eff order s
  refine ⟨?_, ?_, ?_, rfl, flatMap_no_bookkeeping order⟩
  · simp [runTrace, modelStepTrace, List.foldl_append, applyEv]
  · have h0 : (order.flatMap agentStepEvents).count Ev.collectMetrics = 0 := by
      rw [List.count_eq_zero]
      intro hmem
      have := List.all_eq_true.mp (flatMap_no_bookkeeping order) _ hmem
      simp at this
    simp [modelStepTrace, List.count_cons, List.count_append, h0]
  · rw [modelStepTrace, ← List.cons_append]
    exact List.getLast?_concat _

/-- C9: every trader produced by model construction has both metabolism
rates in [1, 4] (hence nonzero) and both initial inventories in [50, 100]
(hence positive), whatever the RNG states, so the MRS computation is
well-defined on it (`DivisionUndefined` cannot arise from construction). -/
theorem c9_construction_bounds :
    ∀ (t r w h : Nat) (amb mr : RNG) (tr : TraderInit),
      tr ∈ (buildModel t r w h amb mr).traders →
      (1 ≤ tr.metabolism_sugar ∧ tr.metabolism_sugar ≤ 4
        ∧ 1 ≤ tr.metabolism_spice ∧ tr.metabolism_spice ≤ 4
        ∧ 50 ≤ tr.sugar ∧ tr.sugar ≤ 100 ∧ 50 ≤ tr.spice ∧ tr.spice ≤ 100)
      ∧ (calculate_mrs (traderEconOfInit tr)).isSome := by
  intro t r w h amb mr tr hmem
  simp only [buildModel] at hmem
  have hb := mkTraders_mem_bounds _ _ tr hmem
  obtain ⟨h1, h2, h3, h4, h5, h6, h7, h8⟩ := hb
  refine ⟨⟨h5, h6, h7, h8, h1, h2, h3, h4⟩, ?_⟩
  have hms : ((tr.metabolism_sugar : ℚ)) ≠ 0 := by
    exact_mod_cast Nat.pos_iff_ne_zero.mp (by omega)
  have hmp : ((tr.metabolism_spice : ℚ)) ≠ 0 := by
    exact_mod_cast Nat.pos_iff_ne_zero.mp (by omega)
  have hsp : ((tr.spice : ℚ)) ≠ 0 := by
    exact_mod_cast Nat.pos_iff_ne_zero.mp (by omega)
  simp [calculate_mrs, traderEconOfInit, hms, hmp, hsp]

/-- C9 witness: the trader constructed from constant-zero streams. -/
theorem c9_construction_bounds_witness :
    (calculate_mrs (traderEconOfInit ⟨50, 50, 1, 1, (0, 0)⟩)).isSome :=
  (c9_construction_bounds 1 0 3 3 (constStream 0) (constStream 0)
    ⟨50, 50, 1, 1, (0, 0)⟩ (by decide)).2

/-- C5: goods are conserved by trade — a single executed increment leaves
the pair's combined sugar and combined spice unchanged, and so does an
entire bounded multi-increment negotiation, for every price rule,
tolerance, iteration cap and starting pair. -/
theorem c5_trade_conservation :
    (∀ (qty price : ℚ) (b s : TraderEcon),
      (executeIncrement qty price b s).1.sugar + (executeIncrement qty price b s).2.sugar
        = b.sugar + s.sugar
      ∧ (executeIncrement qty price b s).1.spice + (executeIncrement qty price b s).2.spice
        = b.spice + s.spice)
  ∧ (∀ (rule : TraderEcon → TraderEcon → ℚ) (tol : ℚ) (fuel : Nat) (a b : TraderEcon),
      (negotiate rule tol fuel a b).1.sugar + (negotiate rule tol fuel a b).2.1.sugar
        = a.sugar + b.sugar
      ∧ (negotiate rule tol fuel a b).1.spice + (negotiate rule tol fuel a b).2.1.spice
        = a.spice + b.spice) := by
  constructor
  · intro qty price b s
    constructor
    · simp only [executeIncrement]
      ring
    · simp only [executeIncrement]
      ring
  · intro rule tol fuel a b
    exact ⟨negotiate_sugar_conserved rule tol fuel a b,
      negotiate_spice_conserved rule tol fuel a b⟩

/-- C10: every seller holds the same module-level tool manager, every
buyer holds the other one, the two are distinct objects, and a registry
mutation made through one agent's reference is observed through every
other same-role agent's reference, across models. -/
theorem c10_shared_tool_managers :
    ∀ (m1 u1 m2 u2 : Nat) (st : ToolStore) (tool : String),
      (mkSellerAgent m1 u1).tool_manager = (mkSellerAgent m2 u2).tool_manager
    ∧ (mkBuyerAgent m1 u1).tool_manager = (mkBuyerAgent m2 u2).tool_manager
    ∧ (mkSellerAgent m1 u1).tool_manager ≠ (mkBuyerAgent m2 u2).tool_manager
    ∧ (st.registerTool (mkSellerAgent m1 u1).tool_manager tool).get
        (mkSellerAgent m2 u2).tool_manager
        = ⟨(st.get TMRef.sellerGlobal).tools ++ [tool]⟩
    ∧ (st.registerTool (mkBuyerAgent m1 u1).tool_manager tool).get
        (mkBuyerAgent m2 u2).tool_manager
        = ⟨(st.get TMRef.buyerGlobal).tools ++ [tool]⟩ := by
  intro m1 u1 m2 u2 st tool
  refine ⟨rfl, rfl, ?_, rfl, rfl⟩
  intro h
  exact TMRef.noConfusion h
